import Mathlib

/-!
Verification of the BGMD robust-SGD training orchestrator
(`src/active_robust.py`, class `ActiveSamplingRobust`).

The orchestrator is shallowly embedded: machine floats that only feed the
divergence check are modelled as `PyFloat` (finite rational, NaN, ±inf);
wall-clock times and gradient entries are rationals; the external
collaborators (model forward/backward via `flatten_grads`, the compressor,
the GAR aggregator, `evaluate_classifier`) are modelled as oracles supplying
the values the orchestrator reads from them at each call site.
-/

namespace BGMD

/-- A Python float as observed by the divergence check at
`active_robust.py` line 125: a finite value, NaN, or ±infinity. -/
inductive PyFloat where
  | finite (q : ℚ)
  | nan
  | posinf
  | neginf
deriving DecidableEq

/-- Line 125: `(train_loss > 1e3) | np.isnan(train_loss) | np.isinf(train_loss)`. -/
def diverged : PyFloat → Bool
  | .finite q => decide (1000 < q)
  | .nan => true
  | .posinf => true
  | .neginf => true

/-- The lazily allocated Jacobian backing matrix `self.G`
(`np.zeros((num_batches, d))`, line 70).  `d` is the column count
(numpy records the shape even when there are zero rows); `rows` are the
`num_batches` worker rows. -/
structure Jac where
  d : Nat
  rows : List (List ℚ)
deriving DecidableEq

/-- Numpy row assignment `G[ix, :] = g` (line 74): succeeds when
`len(g) == d` (plain copy) or `len(g) == 1` (numpy broadcasts the single
value across the row); any other length raises
`ValueError: could not broadcast input array`. -/
def npSetRow (j : Jac) (ix : Nat) (g : List ℚ) : Except String Jac :=
  if g.length = j.d then .ok ⟨j.d, j.rows.set ix g⟩
  else if g.length = 1 then
    .ok ⟨j.d, j.rows.set ix (List.replicate j.d (g.headD 0))⟩
  else .error "ValueError: could not broadcast input array"

/-- The GAR strategy object's counters `self.gar.num_iter` / `self.gar.agg_time`,
read and reset by the orchestrator at lines 94-98. -/
structure GarState where
  num_iter : Nat
  agg_time : ℚ
deriving DecidableEq

/-- The metric keys of `self.metrics` that `run_batch_train` touches. -/
structure Metrics where
  num_iter : Nat
  num_grad_steps : Nat
  num_opt_steps : Nat
  num_param : Option Nat
  epoch_grad_cost : List ℚ
  epoch_agg_cost : List ℚ
  epoch_gm_iter : List Nat
  epoch_compression_cost : List ℚ
  jacobian_residual : List ℚ
  total_grad_cost : ℚ
  total_agg_cost : ℚ
  total_gm_iter : Nat
  total_compression_cost : ℚ
  total_cost : ℚ
  avg_gm_cost : Option ℚ
deriving DecidableEq

/-- The orchestrator state carried across the `while self.epoch < self.num_epochs`
loop: `self.epoch`, the Jacobian `self.G` (None until first allocation),
the aggregator's counters, and `self.metrics`. -/
structure RunState where
  epoch : Nat
  G : Option Jac
  gar : GarState
  metrics : Metrics
deriving DecidableEq

/-- The per-epoch local accumulators initialized at lines 37-40
(`epoch_grad_cost = 0` etc.). -/
structure EpochLocal where
  epoch_grad_cost : ℚ
  epoch_agg_cost : ℚ
  epoch_gm_iter : Nat
  epoch_compression_cost : ℚ
deriving DecidableEq

/-- Configuration consumed by `run_batch_train`: `self.num_epochs`,
`self.num_batches` (the window size W), `len(self.train_loader)` (batches
per epoch), and whether a compressor `self.C_J` is configured. -/
structure Config where
  num_epochs : Nat
  num_batches : Nat
  batches_per_epoch : Nat
  compress : Bool

/-- Modelled from the spec: the external collaborators that are not under
`src/` (the model with `flatten_grads`, the compressor `self.C_J`, the GAR
`self.gar`, and `evaluate_classifier`) are deterministic functions of the
seed, configuration and input data; this oracle packages the values the
orchestrator reads from them, indexed by (epoch, batch) or by epoch. -/
structure DataEnv where
  grads : Nat → Nat → List ℚ
  residual : Nat → Nat → ℚ
  gar_iters : Nat → Nat → Nat
  loss : Nat → PyFloat

/-- The wall-clock observations (`time.time()` differences) the orchestrator
records at each batch: per-iteration gradient time (lines 51/75),
compression time (lines 83/85), and the aggregator's `agg_time`. -/
structure TimeEnv where
  iter_time : Nat → Nat → ℚ
  comp_time : Nat → Nat → ℚ
  agg_time : Nat → Nat → ℚ

/-- Lines 73 and 80: `agg_ix = (batch_ix + 1) % self.num_batches` and the
trigger `agg_ix == 0 and batch_ix != 0` for the aggregation phase. -/
def aggTrigger (W batch_ix : Nat) : Bool :=
  ((batch_ix + 1) % W == 0) && (batch_ix != 0)

/-- One iteration of the batch loop body, lines 49-115 of
`ActiveSamplingRobust.run_batch_train`: counter increments, lazy Jacobian
allocation, the (possibly broadcasting, possibly failing) row write,
the conditional aggregation phase, and the per-batch metric appends. -/
def batchStep (cfg : Config) (den : DataEnv) (ten : TimeEnv)
    (epoch batch_ix : Nat) (s : RunState) (loc : EpochLocal) :
    Except String (RunState × EpochLocal) :=
  let m0 := s.metrics
  let m1 := { m0 with num_iter := m0.num_iter + 1 }
  let m2 := { m1 with num_grad_steps := m1.num_grad_steps + 1 }
  let g := den.grads epoch batch_ix
  let alloc : Metrics × Jac :=
    match s.G with
    | none =>
        ({ m2 with num_param := some g.length },
         ⟨g.length, List.replicate cfg.num_batches (List.replicate g.length 0)⟩)
    | some j => (m2, j)
  let m3 := alloc.1
  let G0 := alloc.2
  let ix := batch_ix % cfg.num_batches
  match npSetRow G0 ix g with
  | .error e => .error e
  | .ok G1 =>
    let loc1 := { loc with epoch_grad_cost := loc.epoch_grad_cost + ten.iter_time epoch batch_ix }
    let post : Metrics × EpochLocal × GarState :=
      if aggTrigger cfg.num_batches batch_ix then
        let loc2 :=
          if cfg.compress then
            { loc1 with epoch_compression_cost :=
                loc1.epoch_compression_cost + ten.comp_time epoch batch_ix }
          else loc1
        let m4 :=
          if cfg.compress then
            { m3 with jacobian_residual := m3.jacobian_residual ++ [den.residual epoch batch_ix] }
          else m3
        let garCall : GarState := ⟨den.gar_iters epoch batch_ix, ten.agg_time epoch batch_ix⟩
        let loc3 := { loc2 with
          epoch_gm_iter := loc2.epoch_gm_iter + garCall.num_iter,
          epoch_agg_cost := loc2.epoch_agg_cost + garCall.agg_time }
        let m5 := { m4 with num_opt_steps := m4.num_opt_steps + 1 }
        (m5, loc3, ⟨0, 0⟩)
      else
        (m3, loc1, s.gar)
    let m6 := post.1
    let locF := post.2.1
    let garF := post.2.2
    let m7 := { m6 with
      epoch_grad_cost := m6.epoch_grad_cost ++ [locF.epoch_grad_cost],
      epoch_agg_cost := m6.epoch_agg_cost ++ [locF.epoch_agg_cost] }
    let m8 :=
      if 0 < locF.epoch_gm_iter then
        { m7 with epoch_gm_iter := m7.epoch_gm_iter ++ [locF.epoch_gm_iter] }
      else m7
    let m9 :=
      if 0 < locF.epoch_compression_cost then
        { m8 with epoch_compression_cost := m8.epoch_compression_cost ++ [locF.epoch_compression_cost] }
      else m8
    .ok ({ epoch := s.epoch, G := some G1, gar := garF, metrics := m9 }, locF)

/-- The batch loop `for batch_ix, (images, labels) in enumerate(self.train_loader)`:
runs `batchStep` over the listed batch indices, propagating the first raised
exception. -/
def batchLoop (cfg : Config) (den : DataEnv) (ten : TimeEnv) (epoch : Nat) :
    List Nat → RunState → EpochLocal → Except String (RunState × EpochLocal)
  | [], s, loc => .ok (s, loc)
  | b :: rest, s, loc =>
    match batchStep cfg den ten epoch b s loc with
    | .error e => .error e
    | .ok (s', loc') => batchLoop cfg den ten epoch rest s' loc'

/-- One iteration of the `while self.epoch < self.num_epochs` loop, lines
34-141: fresh per-epoch accumulators, the batch loop over
`len(train_loader)` batches, the end-of-epoch evaluation and divergence
check, the epoch increment, and the running-total updates. -/
def epochStep (cfg : Config) (den : DataEnv) (ten : TimeEnv) (s : RunState) :
    Except String RunState :=
  match batchLoop cfg den ten s.epoch (List.range cfg.batches_per_epoch) s ⟨0, 0, 0, 0⟩ with
  | .error e => .error e
  | .ok (s1, _) =>
    let train_loss := den.loss s.epoch
    let e1 := if diverged train_loss then cfg.num_epochs else s1.epoch
    let e2 := e1 + 1
    let m := s1.metrics
    let mA := { m with
      total_grad_cost := m.epoch_grad_cost.sum,
      total_agg_cost := m.epoch_agg_cost.sum,
      total_gm_iter := m.epoch_gm_iter.sum,
      total_compression_cost := m.epoch_compression_cost.sum }
    let mB := { mA with
      total_cost := mA.total_grad_cost + mA.total_agg_cost + mA.total_compression_cost }
    let mC :=
      if mB.total_gm_iter ≠ 0 then
        { mB with avg_gm_cost := some (mB.total_agg_cost / (mB.total_gm_iter : ℚ)) }
      else mB
    .ok { s1 with epoch := e2, metrics := mC }

/-- The `while self.epoch < self.num_epochs` loop, given enough fuel.
Each iteration strictly increases `epoch` (proved below), so fuel
`cfg.num_epochs` run from the initial state is exact. -/
def runLoopFuel (cfg : Config) (den : DataEnv) (ten : TimeEnv) :
    Nat → RunState → Except String RunState
  | 0, s => .ok s
  | fuel + 1, s =>
    if s.epoch < cfg.num_epochs then
      match epochStep cfg den ten s with
      | .error e => .error e
      | .ok s' => runLoopFuel cfg den ten fuel s'
    else .ok s

/-- Modelled from the spec: the initial metrics record built by
`TrainPipeline.__init__` (src/training_manager.py, not under src/) —
"Initial state: epoch = 0, empty metrics, no buffer allocated": counters 0,
series empty, totals 0, `avg_gm_cost` absent. -/
def initMetrics : Metrics := ⟨0, 0, 0, none, [], [], [], [], [], 0, 0, 0, 0, 0, none⟩

/-- Modelled from the spec: the initial orchestrator state
(epoch 0, no Jacobian allocated, aggregator counters zero, empty metrics). -/
def initState : RunState := ⟨0, none, ⟨0, 0⟩, initMetrics⟩

/-- `ActiveSamplingRobust.run_batch_train` as a whole run from the initial
state (the seed fixing at lines 31-32 is captured by the oracles being
functions of the seed). -/
def run_batch_train (cfg : Config) (den : DataEnv) (ten : TimeEnv) :
    Except String RunState :=
  runLoopFuel cfg den ten cfg.num_epochs initState

/-- The observable effect of selecting a training routine. -/
inductive TrainEffect where
  | seeds_only
  | batch_train
deriving DecidableEq

/-- `ActiveSamplingRobust.run_train` (lines 26-28): its body only sets
`np.random.seed` and `torch.manual_seed` and returns — no training, no error. -/
def run_train_effect : TrainEffect := .seeds_only

/-- `ActiveSamplingRobust.run_fed_train` (lines 143-144): unconditionally
raises `NotImplementedError`. -/
def run_fed_train : Except String Unit :=
  .error "NotImplementedError: This method needs to be implemented for each pipeline"

/-- The dispatch in `run_main` (lines 190-196): `'vanilla'` calls
`run_train` (seeds only), `'distributed'` calls `run_batch_train`, and any
other mode name raises `NotImplementedError`. -/
def dispatch_train_mode (mode : String) : Except String TrainEffect :=
  if mode = "vanilla" then .ok run_train_effect
  else if mode = "distributed" then .ok .batch_train
  else .error "NotImplementedError"

/-- Invariant carried across epochs: every recorded `epoch_gm_iter` entry is
positive (the code appends the accumulator only when it is `> 0`), and the
`avg_gm_cost` key is only ever present once some `epoch_gm_iter` entry exists. -/
def GmOk (m : Metrics) : Prop :=
  (∀ x ∈ m.epoch_gm_iter, 0 < x) ∧ (m.avg_gm_cost ≠ none → m.epoch_gm_iter ≠ [])

/-- The running-total relations established at every epoch boundary
(lines 131-141): each total is the sum of its series, `total_cost` is the sum
of the three cost totals, and `avg_gm_cost` is present with value
`total_agg_cost / total_gm_iter` exactly when `total_gm_iter` is nonzero. -/
def TotalsOk (m : Metrics) : Prop :=
  m.total_grad_cost = m.epoch_grad_cost.sum ∧
  m.total_agg_cost = m.epoch_agg_cost.sum ∧
  m.total_gm_iter = m.epoch_gm_iter.sum ∧
  m.total_compression_cost = m.epoch_compression_cost.sum ∧
  m.total_cost = m.total_grad_cost + m.total_agg_cost + m.total_compression_cost ∧
  (m.avg_gm_cost = none ↔ m.total_gm_iter = 0) ∧
  (m.total_gm_iter ≠ 0 → m.avg_gm_cost = some (m.total_agg_cost / (m.total_gm_iter : ℚ)))

/-- The projection of the run state onto its wall-clock-independent part:
everything except the recorded cost values (which copy `time.time()`
measurements) is a function of seed, configuration and input data alone. -/
structure NTState where
  epoch : Nat
  G : Option Jac
  gar_num_iter : Nat
  num_iter : Nat
  num_grad_steps : Nat
  num_opt_steps : Nat
  num_param : Option Nat
  epoch_gm_iter : List Nat
  jacobian_residual : List ℚ
  total_gm_iter : Nat
deriving DecidableEq

/-- Project a run state onto its timing-independent components. -/
def ntOf (s : RunState) : NTState :=
  ⟨s.epoch, s.G, s.gar.num_iter, s.metrics.num_iter, s.metrics.num_grad_steps,
   s.metrics.num_opt_steps, s.metrics.num_param, s.metrics.epoch_gm_iter,
   s.metrics.jacobian_residual, s.metrics.total_gm_iter⟩

/-- Timing-independent projection of a batch-step result (state plus the one
timing-independent per-epoch accumulator, the GM iteration count). -/
def ntPair (p : RunState × EpochLocal) : NTState × Nat :=
  (ntOf p.1, p.2.epoch_gm_iter)

/-- Concrete oracle: every batch yields the 1-dimensional gradient `[1]`, the
GAR reports one iteration per call, evaluation losses stay at 0. -/
def denW : DataEnv := ⟨fun _ _ => [1], fun _ _ => 0, fun _ _ => 1, fun _ => .finite 0⟩

/-- Concrete timing oracle: every measured wall-clock difference is 0. -/
def tenW : TimeEnv := ⟨fun _ _ => 0, fun _ _ => 0, fun _ _ => 0⟩

/-- Concrete configuration: 1 epoch, window W = 4, 4 batches per epoch. -/
def cfgW : Config := ⟨1, 4, 4, false⟩

/-- Concrete configuration: 1 epoch, window W = 1, 1 batch per epoch. -/
def cfg2x : Config := ⟨1, 1, 1, false⟩

/-- Concrete oracle whose end-of-epoch evaluation loss is NaN. -/
def den2x : DataEnv := ⟨fun _ _ => [1], fun _ _ => 0, fun _ _ => 0, fun _ => .nan⟩

/-- Concrete configuration: 1 epoch, window W = 2, 2 batches per epoch. -/
def cfg3x : Config := ⟨1, 2, 2, false⟩

/-- Concrete oracle: the first gradient has length 2, the second has length 1
(numpy broadcasts the latter instead of failing). -/
def den3x : DataEnv :=
  ⟨fun _ b => if b = 0 then [3, 4] else [5], fun _ _ => 0, fun _ _ => 0, fun _ => .finite 0⟩

/-- Concrete configuration: 2 epochs, window W = 2, 3 batches per epoch
(batches per epoch not a multiple of W). -/
def cfg8x : Config := ⟨2, 2, 3, false⟩

/-- Concrete oracle with pairwise distinct gradients: the batch at
per-epoch index b of epoch e yields `[3 e + b]`, i.e. the global step number. -/
def den8x : DataEnv :=
  ⟨fun e b => [(3 * e + b : ℚ)], fun _ _ => 0, fun _ _ => 0, fun _ => .finite 0⟩

/-- Concrete configuration for the determinism counterexample. -/
def cfg9x : Config := ⟨1, 1, 1, false⟩

/-- Concrete data oracle shared by the two determinism runs. -/
def den9x : DataEnv := ⟨fun _ _ => [1], fun _ _ => 0, fun _ _ => 0, fun _ => .finite 0⟩

/-- First timing oracle: every per-iteration gradient time is 1 second. -/
def ten9a : TimeEnv := ⟨fun _ _ => 1, fun _ _ => 0, fun _ _ => 0⟩

/-- Second timing oracle: every per-iteration gradient time is 2 seconds. -/
def ten9b : TimeEnv := ⟨fun _ _ => 2, fun _ _ => 0, fun _ _ => 0⟩

/-- Concrete state with an already-allocated 2 x 2 zero Jacobian. -/
def s3m : RunState := ⟨0, some ⟨2, [[0, 0], [0, 0]]⟩, ⟨0, 0⟩, initMetrics⟩

/-- Concrete oracle whose gradients have length 2 (matching `s3m`). -/
def den3g : DataEnv := ⟨fun _ _ => [5, 6], fun _ _ => 0, fun _ _ => 0, fun _ => .finite 0⟩

/-- Concrete oracle whose gradients have length 3 (mismatching `s3m`). -/
def den3m : DataEnv := ⟨fun _ _ => [1, 2, 3], fun _ _ => 0, fun _ _ => 0, fun _ => .finite 0⟩

/-- The state after the batch step at per-epoch index 3 of `cfgW`/`denW`/`tenW`
from the initial state. -/
def s3W : RunState :=
  ⟨0, some ⟨1, [[0], [0], [0], [1]]⟩, ⟨0, 0⟩,
   ⟨1, 1, 1, some 1, [0], [0], [1], [], [], 0, 0, 0, 0, 0, none⟩⟩

/-- The per-epoch accumulators after that batch step. -/
def l3W : EpochLocal := ⟨0, 0, 1, 0⟩

/-- The state after one full epoch of `cfgW`/`denW`/`tenW`. -/
def s6W : RunState :=
  ⟨1, some ⟨1, [[1], [1], [1], [1]]⟩, ⟨0, 0⟩,
   ⟨4, 4, 1, some 1, [0, 0, 0, 0], [0, 0, 0, 0], [1], [], [], 0, 0, 1, 0, 0, some 0⟩⟩

/-- The terminal state of the divergent run `cfg2x`/`den2x`/`tenW`. -/
def s2E : RunState :=
  ⟨2, some ⟨1, [[1]]⟩, ⟨0, 0⟩,
   ⟨1, 1, 0, some 1, [0], [0], [], [], [], 0, 0, 0, 0, 0, none⟩⟩

/-- The state after one batch step of `cfg3x`/`den3g`/`tenW` from `s3m`. -/
def s3g : RunState :=
  ⟨0, some ⟨2, [[5, 6], [0, 0]]⟩, ⟨0, 0⟩,
   ⟨1, 1, 0, none, [0], [0], [], [], [], 0, 0, 0, 0, 0, none⟩⟩

/-- The per-epoch accumulators after that batch step. -/
def l3g : EpochLocal := ⟨0, 0, 0, 0⟩

/-- The state after the four batch steps of one `cfgW` epoch (before the
end-of-epoch totals update). -/
def sLW : RunState :=
  ⟨0, some ⟨1, [[1], [1], [1], [1]]⟩, ⟨0, 0⟩,
   ⟨4, 4, 1, some 1, [0, 0, 0, 0], [0, 0, 0, 0], [1], [], [], 0, 0, 0, 0, 0, none⟩⟩

/-- The per-epoch accumulators after those four batch steps. -/
def lLW : EpochLocal := ⟨0, 0, 1, 0⟩

/-!
Lemmas about the embedded orchestrator, followed by the claim theorems.
-/

/-- Shape facts about a successful numpy row write: the matrix shape is
unchanged, and when the vector length matches the column count the write is a
plain `List.set` of that row. -/
theorem npSetRow_ok (j : Jac) (ix : Nat) (g : List ℚ) (j' : Jac)
    (h : npSetRow j ix g = .ok j') :
    j'.d = j.d ∧ j'.rows.length = j.rows.length ∧
    (g.length = j.d → j'.rows = j.rows.set ix g) := by
  unfold npSetRow at h
  split_ifs at h with h1 h2 <;> simp only [Except.ok.injEq] at h <;> subst h <;> simp_all

/-- A row write with a vector whose length is neither the column count nor 1
raises numpy's broadcast ValueError. -/
theorem npSetRow_err (j : Jac) (ix : Nat) (g : List ℚ)
    (hd : g.length ≠ j.d) (h1 : g.length ≠ 1) :
    npSetRow j ix g = .error "ValueError: could not broadcast input array" := by
  unfold npSetRow
  rw [if_neg hd, if_neg h1]

/-- Everything a successful batch step does to the orchestrator state apart
from the Jacobian write: counter increments, the trigger-guarded aggregation
effects, the per-batch series appends, and preservation of the totals. -/
theorem batchStep_spec (cfg : Config) (den : DataEnv) (ten : TimeEnv)
    (e b : Nat) (s : RunState) (loc : EpochLocal) (s' : RunState) (loc' : EpochLocal)
    (h : batchStep cfg den ten e b s loc = .ok (s', loc')) :
    s'.epoch = s.epoch ∧
    s'.gar = (if aggTrigger cfg.num_batches b then (⟨0, 0⟩ : GarState) else s.gar) ∧
    s'.metrics.num_iter = s.metrics.num_iter + 1 ∧
    s'.metrics.num_grad_steps = s.metrics.num_grad_steps + 1 ∧
    s'.metrics.num_opt_steps
      = s.metrics.num_opt_steps + (if aggTrigger cfg.num_batches b then 1 else 0) ∧
    s'.metrics.epoch_grad_cost = s.metrics.epoch_grad_cost ++ [loc'.epoch_grad_cost] ∧
    s'.metrics.epoch_agg_cost = s.metrics.epoch_agg_cost ++ [loc'.epoch_agg_cost] ∧
    s'.metrics.epoch_gm_iter
      = (if 0 < loc'.epoch_gm_iter then s.metrics.epoch_gm_iter ++ [loc'.epoch_gm_iter]
         else s.metrics.epoch_gm_iter) ∧
    s'.metrics.epoch_compression_cost
      = (if 0 < loc'.epoch_compression_cost
         then s.metrics.epoch_compression_cost ++ [loc'.epoch_compression_cost]
         else s.metrics.epoch_compression_cost) ∧
    s'.metrics.jacobian_residual
      = (if aggTrigger cfg.num_batches b ∧ cfg.compress = true
         then s.metrics.jacobian_residual ++ [den.residual e b]
         else s.metrics.jacobian_residual) ∧
    s'.metrics.total_grad_cost = s.metrics.total_grad_cost ∧
    s'.metrics.total_agg_cost = s.metrics.total_agg_cost ∧
    s'.metrics.total_gm_iter = s.metrics.total_gm_iter ∧
    s'.metrics.total_compression_cost = s.metrics.total_compression_cost ∧
    s'.metrics.total_cost = s.metrics.total_cost ∧
    s'.metrics.avg_gm_cost = s.metrics.avg_gm_cost ∧
    loc'.epoch_gm_iter
      = loc.epoch_gm_iter + (if aggTrigger cfg.num_batches b then den.gar_iters e b else 0) ∧
    loc'.epoch_agg_cost
      = loc.epoch_agg_cost + (if aggTrigger cfg.num_batches b then ten.agg_time e b else 0) := by
  rcases hG : s.G with _ | j <;>
  by_cases hT : aggTrigger cfg.num_batches b <;>
  by_cases hC : cfg.compress <;>
  simp only [batchStep, hG, hT, hC, if_true, if_false, ite_true, ite_false,
             Bool.false_eq_true, Bool.true_eq_false] at h <;>
  · split at h
    · exact absurd h (by simp)
    · split at h <;> split at h <;>
      · simp only [Except.ok.injEq, Prod.mk.injEq] at h
        obtain ⟨hs, hl⟩ := h
        subst hs
        subst hl
        repeat' apply And.intro
        all_goals first
          | rfl
          | (split_ifs <;> first | rfl | simp_all)


theorem batchStep_G_none (cfg : Config) (den : DataEnv) (ten : TimeEnv)
    (e b : Nat) (s : RunState) (loc : EpochLocal) (hG : s.G = none) :
    ∃ s' loc', batchStep cfg den ten e b s loc = .ok (s', loc') ∧
      s'.G = some ⟨(den.grads e b).length,
        (List.replicate cfg.num_batches (List.replicate (den.grads e b).length 0)).set
          (b % cfg.num_batches) (den.grads e b)⟩ ∧
      s'.metrics.num_param = some (den.grads e b).length := by
  simp only [batchStep, hG, npSetRow, if_pos rfl]
  split_ifs <;> exact ⟨_, _, rfl, rfl, rfl⟩

theorem batchStep_G_some (cfg : Config) (den : DataEnv) (ten : TimeEnv)
    (e b : Nat) (s : RunState) (loc : EpochLocal) (s' : RunState) (loc' : EpochLocal)
    (j : Jac) (hG : s.G = some j)
    (h : batchStep cfg den ten e b s loc = .ok (s', loc')) :
    ∃ j', s'.G = some j' ∧ j'.d = j.d ∧ j'.rows.length = j.rows.length ∧
      s'.metrics.num_param = s.metrics.num_param ∧
      ((den.grads e b).length = j.d →
        j'.rows = j.rows.set (b % cfg.num_batches) (den.grads e b)) := by
  by_cases hT : aggTrigger cfg.num_batches b <;>
  by_cases hC : cfg.compress <;>
  simp only [batchStep, hG, hT, hC, if_true, if_false, ite_true, ite_false,
             Bool.false_eq_true, Bool.true_eq_false] at h <;>
  · split at h
    · exact absurd h (by simp)
    · rename_i G1 hnp
      obtain ⟨hd, hlen, hset⟩ := npSetRow_ok _ _ _ _ hnp
      split at h <;> split at h <;>
      · simp only [Except.ok.injEq, Prod.mk.injEq] at h
        obtain ⟨hs, hl⟩ := h
        subst hs
        exact ⟨G1, rfl, hd, hlen, rfl, hset⟩

theorem batchStep_G_mismatch (cfg : Config) (den : DataEnv) (ten : TimeEnv)
    (e b : Nat) (s : RunState) (loc : EpochLocal) (j : Jac) (hG : s.G = some j)
    (hd : (den.grads e b).length ≠ j.d) (h1 : (den.grads e b).length ≠ 1) :
    batchStep cfg den ten e b s loc = .error "ValueError: could not broadcast input array" := by
  simp only [batchStep, hG]
  rw [npSetRow_err j _ _ hd h1]



theorem batchLoop_spec (cfg : Config) (den : DataEnv) (ten : TimeEnv) (e : Nat) :
    ∀ (bs : List Nat) (s : RunState) (loc : EpochLocal) (s' : RunState) (loc' : EpochLocal),
    batchLoop cfg den ten e bs s loc = .ok (s', loc') →
    s'.epoch = s.epoch ∧
    s'.metrics.num_iter = s.metrics.num_iter + bs.length ∧
    s'.metrics.num_grad_steps = s.metrics.num_grad_steps + bs.length ∧
    s'.metrics.epoch_grad_cost.length = s.metrics.epoch_grad_cost.length + bs.length ∧
    s'.metrics.epoch_agg_cost.length = s.metrics.epoch_agg_cost.length + bs.length ∧
    s.metrics.epoch_grad_cost <+: s'.metrics.epoch_grad_cost ∧
    s.metrics.epoch_agg_cost <+: s'.metrics.epoch_agg_cost ∧
    s.metrics.epoch_gm_iter <+: s'.metrics.epoch_gm_iter ∧
    s.metrics.epoch_compression_cost <+: s'.metrics.epoch_compression_cost ∧
    s.metrics.jacobian_residual <+: s'.metrics.jacobian_residual ∧
    s'.metrics.total_grad_cost = s.metrics.total_grad_cost ∧
    s'.metrics.total_agg_cost = s.metrics.total_agg_cost ∧
    s'.metrics.total_gm_iter = s.metrics.total_gm_iter ∧
    s'.metrics.total_compression_cost = s.metrics.total_compression_cost ∧
    s'.metrics.total_cost = s.metrics.total_cost ∧
    s'.metrics.avg_gm_cost = s.metrics.avg_gm_cost ∧
    ((∀ x ∈ s.metrics.epoch_gm_iter, 0 < x) → ∀ x ∈ s'.metrics.epoch_gm_iter, 0 < x) := by
  intro bs
  induction bs with
  | nil =>
    intro s loc s' loc' h
    simp only [batchLoop, Except.ok.injEq, Prod.mk.injEq] at h
    obtain ⟨hs, -⟩ := h
    subst hs
    simp
  | cons b rest ih =>
    intro s loc s' loc' h
    simp only [batchLoop] at h
    rcases hstep : batchStep cfg den ten e b s loc with err | p
    · rw [hstep] at h; exact absurd h (by simp)
    · rw [hstep] at h
      obtain ⟨s1, loc1⟩ := p
      obtain ⟨hep, hgar, hni, hngs, hnos, hegc, heac, hegi, hecc, hjr,
              htg, hta, htgm, htc, htot, havg, hlgm⟩ :=
        batchStep_spec cfg den ten e b s loc s1 loc1 hstep
      obtain ⟨iep, ini, ings, ilen, ilen2, ipgc, ipac, ipgi, ipcc, ipjr,
              itg, ita, itgm, itc, itot, iavg, ipos⟩ := ih s1 loc1 s' loc' h
      refine ⟨iep.trans hep, ?_, ?_, ?_, ?_, ?_, ?_, ?_, ?_, ?_, ?_, ?_, ?_, ?_, ?_, ?_, ?_⟩
      · rw [ini, hni]; simp only [List.length_cons]; omega
      · rw [ings, hngs]; simp only [List.length_cons]; omega
      · rw [ilen, hegc]
        simp only [List.length_cons, List.length_append, List.length_nil]; omega
      · rw [ilen2, heac]
        simp only [List.length_cons, List.length_append, List.length_nil]; omega
      · exact (hegc ▸ List.prefix_append _ _).trans ipgc
      · exact (heac ▸ List.prefix_append _ _).trans ipac
      · refine List.IsPrefix.trans ?_ ipgi
        rw [hegi]
        split_ifs <;> simp
      · refine List.IsPrefix.trans ?_ ipcc
        rw [hecc]
        split_ifs <;> simp
      · refine List.IsPrefix.trans ?_ ipjr
        rw [hjr]
        split_ifs <;> simp
      · rw [itg, htg]
      · rw [ita, hta]
      · rw [itgm, htgm]
      · rw [itc, htc]
      · rw [itot, htot]
      · rw [iavg, havg]
      · intro hpos
        refine ipos ?_
        rw [hegi]
        split_ifs with hp
        · intro x hx
          rcases List.mem_append.mp hx with hx | hx
          · exact hpos x hx
          · simp at hx; omega
        · exact hpos



theorem epochStep_spec (cfg : Config) (den : DataEnv) (ten : TimeEnv)
    (s : RunState) (s' : RunState) (h : epochStep cfg den ten s = .ok s') :
    s'.epoch = (if diverged (den.loss s.epoch) then cfg.num_epochs else s.epoch) + 1 ∧
    s.metrics.epoch_grad_cost <+: s'.metrics.epoch_grad_cost ∧
    s.metrics.epoch_agg_cost <+: s'.metrics.epoch_agg_cost ∧
    s.metrics.epoch_gm_iter <+: s'.metrics.epoch_gm_iter ∧
    s.metrics.epoch_compression_cost <+: s'.metrics.epoch_compression_cost ∧
    s.metrics.jacobian_residual <+: s'.metrics.jacobian_residual ∧
    (s.metrics.num_iter = s.metrics.num_grad_steps →
      s'.metrics.num_iter = s'.metrics.num_grad_steps) ∧
    (GmOk s.metrics → GmOk s'.metrics ∧ TotalsOk s'.metrics) := by
  simp only [epochStep] at h
  rcases hbl : batchLoop cfg den ten s.epoch (List.range cfg.batches_per_epoch) s ⟨0, 0, 0, 0⟩
    with err | p
  · rw [hbl] at h; exact absurd h (by simp)
  · rw [hbl] at h
    obtain ⟨s1, loc1⟩ := p
    obtain ⟨iep, ini, ings, ilen, ilen2, ipgc, ipac, ipgi, ipcc, ipjr,
            itg, ita, itgm, itc, itot, iavg, ipos⟩ :=
      batchLoop_spec cfg den ten s.epoch (List.range cfg.batches_per_epoch) s ⟨0, 0, 0, 0⟩ s1 loc1 hbl
    -- h now relates s' to the totals update of s1
    by_cases hz : s1.metrics.epoch_gm_iter.sum = 0 <;>
      simp only [Except.ok.injEq, hz, ne_eq, not_true_eq_false, not_false_eq_true,
                 if_true, if_false, ite_true, ite_false] at h <;>
      subst h
    · -- total_gm_iter = 0 : avg_gm_cost key untouched
      refine ⟨by simp [iep], ipgc, ipac, ipgi, ipcc, ipjr, ?_, ?_⟩
      · intro hEq; simpa [ini, ings] using hEq
      · intro hgm
        have hpos : ∀ x ∈ s1.metrics.epoch_gm_iter, 0 < x := ipos hgm.1
        have hnil : s1.metrics.epoch_gm_iter = [] := by
          cases hlist : s1.metrics.epoch_gm_iter with
          | nil => rfl
          | cons a t =>
            rw [hlist] at hz
            have ha := hpos a (by rw [hlist]; simp)
            simp at hz
            omega
        have havgnone : s1.metrics.avg_gm_cost = none := by
          by_contra hne
          have := hgm.2 (by rw [iavg] at hne; exact hne)
          have : s.metrics.epoch_gm_iter ≠ [] := this
          have : s1.metrics.epoch_gm_iter ≠ [] := by
            intro hcon
            rcases ipgi with ⟨t, hcat⟩
            rw [hcon] at hcat
            exact this (List.append_eq_nil.mp hcat).1
          exact this hnil
        constructor
        · exact ⟨hpos, by simp [havgnone]⟩
        · refine ⟨rfl, rfl, ?_, rfl, rfl, ?_, ?_⟩
          · simp [hz, hnil]
          · simp [havgnone, hz, hnil]
          · intro hcon; simp [hz, hnil] at hcon
    · -- total_gm_iter ≠ 0 : avg_gm_cost recomputed
      refine ⟨by simp [iep], ipgc, ipac, ipgi, ipcc, ipjr, ?_, ?_⟩
      · intro hEq; simpa [ini, ings] using hEq
      · intro hgm
        have hpos : ∀ x ∈ s1.metrics.epoch_gm_iter, 0 < x := ipos hgm.1
        constructor
        · refine ⟨hpos, fun _ => ?_⟩
          intro hcon
          rw [hcon] at hz
          simp at hz
        · exact ⟨rfl, rfl, rfl, rfl, rfl, by simp [hz], fun _ => rfl⟩



theorem runLoopFuel_inv (cfg : Config) (den : DataEnv) (ten : TimeEnv) :
    ∀ (fuel : Nat) (s s' : RunState), runLoopFuel cfg den ten fuel s = .ok s' →
    ((GmOk s.metrics ∧ TotalsOk s.metrics) → (GmOk s'.metrics ∧ TotalsOk s'.metrics)) ∧
    (s.metrics.num_iter = s.metrics.num_grad_steps →
      s'.metrics.num_iter = s'.metrics.num_grad_steps) ∧
    (cfg.num_epochs - s.epoch ≤ fuel → cfg.num_epochs ≤ s'.epoch) := by
  intro fuel
  induction fuel with
  | zero =>
    intro s s' h
    simp only [runLoopFuel, Except.ok.injEq] at h
    subst h
    exact ⟨id, id, by omega⟩
  | succ n ih =>
    intro s s' h
    simp only [runLoopFuel] at h
    by_cases hlt : s.epoch < cfg.num_epochs
    · rw [if_pos hlt] at h
      rcases hes : epochStep cfg den ten s with err | s1
      · rw [hes] at h; exact absurd h (by simp)
      · rw [hes] at h
        obtain ⟨hep, -, -, -, -, -, hcnt, hgm⟩ := epochStep_spec cfg den ten s s1 hes
        obtain ⟨i1, i2, i3⟩ := ih s1 s' h
        refine ⟨?_, ?_, ?_⟩
        · intro hin
          exact i1 (hgm hin.1)
        · intro hEq; exact i2 (hcnt hEq)
        · intro hfuel
          refine i3 ?_
          have hinc : s.epoch + 1 ≤ s1.epoch := by
            rw [hep]; split_ifs <;> omega
          omega
    · rw [if_neg hlt] at h
      simp only [Except.ok.injEq] at h
      subst h
      exact ⟨id, id, fun _ => by omega⟩

theorem initState_ok :
    GmOk initState.metrics ∧ TotalsOk initState.metrics ∧
    initState.metrics.num_iter = initState.metrics.num_grad_steps := by
  refine ⟨⟨by simp [initState, initMetrics], by simp [initState, initMetrics]⟩, ?_, rfl⟩
  refine ⟨rfl, rfl, rfl, rfl, by simp [initState, initMetrics], by simp [initState, initMetrics], ?_⟩
  intro hcon
  simp [initState, initMetrics] at hcon



theorem batchStep_nt (cfg : Config) (den : DataEnv) (t1 t2 : TimeEnv) (e b : Nat)
    (s1 s2 : RunState) (l1 l2 : EpochLocal)
    (hs : ntOf s1 = ntOf s2) (hl : l1.epoch_gm_iter = l2.epoch_gm_iter) :
    (batchStep cfg den t1 e b s1 l1).map ntPair
      = (batchStep cfg den t2 e b s2 l2).map ntPair := by
  have hep : s1.epoch = s2.epoch := congrArg NTState.epoch hs
  have hG : s1.G = s2.G := congrArg NTState.G hs
  have hgar : s1.gar.num_iter = s2.gar.num_iter := congrArg NTState.gar_num_iter hs
  have hni : s1.metrics.num_iter = s2.metrics.num_iter := congrArg NTState.num_iter hs
  have hngs : s1.metrics.num_grad_steps = s2.metrics.num_grad_steps :=
    congrArg NTState.num_grad_steps hs
  have hnos : s1.metrics.num_opt_steps = s2.metrics.num_opt_steps :=
    congrArg NTState.num_opt_steps hs
  have hnpm : s1.metrics.num_param = s2.metrics.num_param := congrArg NTState.num_param hs
  have hegi : s1.metrics.epoch_gm_iter = s2.metrics.epoch_gm_iter :=
    congrArg NTState.epoch_gm_iter hs
  have hjr : s1.metrics.jacobian_residual = s2.metrics.jacobian_residual :=
    congrArg NTState.jacobian_residual hs
  have htgm : s1.metrics.total_gm_iter = s2.metrics.total_gm_iter :=
    congrArg NTState.total_gm_iter hs
  by_cases hT : aggTrigger cfg.num_batches b <;>
  by_cases hC : cfg.compress <;>
  simp only [batchStep, hT, hC, if_true, if_false, ite_true, ite_false,
             Bool.false_eq_true, Bool.true_eq_false, hG, hl, hep, hni, hngs, hnos,
             hnpm, hegi, hjr, hgar] <;>
  rcases hg2 : s2.G with _ | j <;>
  simp only [hg2] <;>
  rcases hnp : npSetRow _ (b % cfg.num_batches) (den.grads e b) with err | G1 <;>
  simp only [hnp, Except.map] <;>
  · simp only [ntPair, ntOf, Except.ok.injEq, Prod.mk.injEq, NTState.mk.injEq]
    repeat' apply And.intro
    all_goals first
      | rfl
      | assumption
      | (simp only [apply_ite (f := RunState.metrics), apply_ite (f := Metrics.num_iter),
            apply_ite (f := Metrics.num_grad_steps), apply_ite (f := Metrics.num_opt_steps),
            apply_ite (f := Metrics.num_param), apply_ite (f := Metrics.epoch_gm_iter),
            apply_ite (f := Metrics.jacobian_residual), apply_ite (f := Metrics.total_gm_iter),
            ite_self] <;>
         (first | rfl | assumption))



theorem batchLoop_nt (cfg : Config) (den : DataEnv) (t1 t2 : TimeEnv) (e : Nat) :
    ∀ (bs : List Nat) (s1 s2 : RunState) (l1 l2 : EpochLocal),
    ntOf s1 = ntOf s2 → l1.epoch_gm_iter = l2.epoch_gm_iter →
    (batchLoop cfg den t1 e bs s1 l1).map ntPair
      = (batchLoop cfg den t2 e bs s2 l2).map ntPair := by
  intro bs
  induction bs with
  | nil =>
    intro s1 s2 l1 l2 hs hl
    simp [batchLoop, ntPair, Except.map, hs, hl]
  | cons b rest ih =>
    intro s1 s2 l1 l2 hs hl
    have hbs := batchStep_nt cfg den t1 t2 e b s1 s2 l1 l2 hs hl
    simp only [batchLoop]
    rcases h1 : batchStep cfg den t1 e b s1 l1 with e1 | p1 <;>
    rcases h2 : batchStep cfg den t2 e b s2 l2 with e2 | p2 <;>
    rw [h1, h2] at hbs <;>
    simp only [Except.map, Except.error.injEq, Except.ok.injEq] at hbs
    · simp [Except.map, hbs]
    · exact absurd hbs (by simp)
    · exact absurd hbs (by simp)
    · obtain ⟨s1', l1'⟩ := p1
      obtain ⟨s2', l2'⟩ := p2
      simp only [ntPair, Prod.mk.injEq] at hbs
      exact ih s1' s2' l1' l2' hbs.1 hbs.2

theorem epochStep_nt (cfg : Config) (den : DataEnv) (t1 t2 : TimeEnv)
    (s1 s2 : RunState) (hs : ntOf s1 = ntOf s2) :
    (epochStep cfg den t1 s1).map ntOf = (epochStep cfg den t2 s2).map ntOf := by
  have hep : s1.epoch = s2.epoch := congrArg NTState.epoch hs
  have hbl := batchLoop_nt cfg den t1 t2 s2.epoch (List.range cfg.batches_per_epoch)
      s1 s2 ⟨0, 0, 0, 0⟩ ⟨0, 0, 0, 0⟩ hs rfl
  simp only [epochStep, hep]
  rcases h1 : batchLoop cfg den t1 s2.epoch (List.range cfg.batches_per_epoch) s1 ⟨0, 0, 0, 0⟩
    with e1 | p1 <;>
  rcases h2 : batchLoop cfg den t2 s2.epoch (List.range cfg.batches_per_epoch) s2 ⟨0, 0, 0, 0⟩
    with e2 | p2 <;>
  rw [h1, h2] at hbl <;>
  simp only [Except.map, Except.error.injEq, Except.ok.injEq] at hbl
  · simp [Except.map, hbl]
  · exact absurd hbl (by simp)
  · exact absurd hbl (by simp)
  · obtain ⟨a1, l1⟩ := p1
    obtain ⟨a2, l2⟩ := p2
    simp only [ntPair, Prod.mk.injEq] at hbl
    obtain ⟨ha, -⟩ := hbl
    have haep : a1.epoch = a2.epoch := congrArg NTState.epoch ha
    have haG : a1.G = a2.G := congrArg NTState.G ha
    have hagar : a1.gar.num_iter = a2.gar.num_iter := congrArg NTState.gar_num_iter ha
    have hani : a1.metrics.num_iter = a2.metrics.num_iter := congrArg NTState.num_iter ha
    have hangs : a1.metrics.num_grad_steps = a2.metrics.num_grad_steps :=
      congrArg NTState.num_grad_steps ha
    have hanos : a1.metrics.num_opt_steps = a2.metrics.num_opt_steps :=
      congrArg NTState.num_opt_steps ha
    have hanpm : a1.metrics.num_param = a2.metrics.num_param := congrArg NTState.num_param ha
    have haegi : a1.metrics.epoch_gm_iter = a2.metrics.epoch_gm_iter :=
      congrArg NTState.epoch_gm_iter ha
    have hajr : a1.metrics.jacobian_residual = a2.metrics.jacobian_residual :=
      congrArg NTState.jacobian_residual ha
    simp only [Except.map, Except.ok.injEq, ntOf, NTState.mk.injEq, haep, haegi]
    repeat' apply And.intro
    all_goals
      first
        | rfl
        | assumption
        | (simp only [apply_ite (f := RunState.metrics), apply_ite (f := RunState.gar),
              apply_ite (f := RunState.epoch), apply_ite (f := RunState.G),
              apply_ite (f := GarState.num_iter),
              apply_ite (f := Metrics.num_iter), apply_ite (f := Metrics.num_grad_steps),
              apply_ite (f := Metrics.num_opt_steps), apply_ite (f := Metrics.num_param),
              apply_ite (f := Metrics.epoch_gm_iter), apply_ite (f := Metrics.jacobian_residual),
              apply_ite (f := Metrics.total_gm_iter), ite_self] <;>
             (first | rfl | assumption))

theorem runLoopFuel_nt (cfg : Config) (den : DataEnv) (t1 t2 : TimeEnv) :
    ∀ (fuel : Nat) (s1 s2 : RunState), ntOf s1 = ntOf s2 →
    (runLoopFuel cfg den t1 fuel s1).map ntOf = (runLoopFuel cfg den t2 fuel s2).map ntOf := by
  intro fuel
  induction fuel with
  | zero =>
    intro s1 s2 hs
    simp [runLoopFuel, Except.map, hs]
  | succ n ih =>
    intro s1 s2 hs
    have hep : s1.epoch = s2.epoch := congrArg NTState.epoch hs
    simp only [runLoopFuel, hep]
    by_cases hlt : s2.epoch < cfg.num_epochs
    · rw [if_pos hlt, if_pos hlt]
      have hes := epochStep_nt cfg den t1 t2 s1 s2 hs
      rcases h1 : epochStep cfg den t1 s1 with e1 | a1 <;>
      rcases h2 : epochStep cfg den t2 s2 with e2 | a2 <;>
      rw [h1, h2] at hes <;>
      simp only [Except.map, Except.error.injEq, Except.ok.injEq] at hes
      · simp [Except.map, hes]
      · exact absurd hes (by simp)
      · exact absurd hes (by simp)
      · exact ih a1 a2 hes
    · rw [if_neg hlt, if_neg hlt]
      simp [Except.map, hs]



theorem batchW_eval :
    batchStep cfgW denW tenW 0 3 initState ⟨0, 0, 0, 0⟩ = .ok (s3W, l3W) := by
  simp only [batchStep, npSetRow, aggTrigger, initState, initMetrics, cfgW, denW, tenW, s3W, l3W]
  norm_num
  all_goals decide

theorem batch3g_eval :
    batchStep cfg3x den3g tenW 0 0 s3m ⟨0, 0, 0, 0⟩ = .ok (s3g, l3g) := by
  simp only [batchStep, npSetRow, aggTrigger, s3m, initMetrics, cfg3x, den3g, tenW, s3g, l3g]
  norm_num

theorem epoch2x_eval :
    epochStep cfg2x den2x tenW initState = .ok s2E := by
  simp only [epochStep, batchLoop, batchStep, npSetRow, aggTrigger, diverged,
             initState, initMetrics, cfg2x, den2x, tenW, s2E, List.range_succ]
  norm_num

theorem run2x_eval :
    run_batch_train cfg2x den2x tenW = .ok s2E := by
  simp only [run_batch_train, runLoopFuel, epochStep, batchLoop, batchStep, npSetRow,
             aggTrigger, diverged, initState, initMetrics, cfg2x, den2x, tenW, s2E,
             List.range_succ]
  norm_num

theorem runW_eval :
    runLoopFuel cfgW denW tenW 1 initState = .ok s6W := by
  simp only [runLoopFuel, epochStep, batchLoop, batchStep, npSetRow,
             aggTrigger, diverged, initState, initMetrics, cfgW, denW, tenW, s6W,
             List.range_succ]
  norm_num
  all_goals decide

theorem loopW_eval :
    batchLoop cfgW denW tenW 0 [0, 1, 2, 3] initState ⟨0, 0, 0, 0⟩ = .ok (sLW, lLW) := by
  simp only [batchLoop, batchStep, npSetRow, aggTrigger, initState, initMetrics,
             cfgW, denW, tenW, sLW, lLW]
  norm_num
  all_goals decide



/-- C1: the aggregation phase (observable through the `num_opt_steps`
increment) runs at a batch step exactly when `(batch_ix + 1) mod W == 0 and
batch_ix != 0` with W the configured `num_batches`; in particular, for W = 4
the trigger fires after step 3 and not after steps 0, 1, or 2. -/
theorem c1_aggregation_trigger (cfg : Config) (den : DataEnv) (ten : TimeEnv)
    (e b : Nat) (s : RunState) (loc : EpochLocal) (s' : RunState) (loc' : EpochLocal)
    (h : batchStep cfg den ten e b s loc = .ok (s', loc')) :
    (s'.metrics.num_opt_steps = s.metrics.num_opt_steps + 1
        ↔ ((b + 1) % cfg.num_batches = 0 ∧ b ≠ 0)) ∧
    (aggTrigger cfg.num_batches b = true ↔ ((b + 1) % cfg.num_batches = 0 ∧ b ≠ 0)) ∧
    aggTrigger 4 3 = true ∧ aggTrigger 4 0 = false ∧
    aggTrigger 4 1 = false ∧ aggTrigger 4 2 = false := by
  obtain ⟨-, -, -, -, hnos, -⟩ := batchStep_spec cfg den ten e b s loc s' loc' h
  have hiff : aggTrigger cfg.num_batches b = true ↔ ((b + 1) % cfg.num_batches = 0 ∧ b ≠ 0) := by
    simp [aggTrigger]
  refine ⟨?_, hiff, by decide, by decide, by decide, by decide⟩
  rw [hnos]
  by_cases hT : aggTrigger cfg.num_batches b = true
  · rw [if_pos hT]
    exact iff_of_true rfl (hiff.mp hT)
  · rw [if_neg hT]
    exact iff_of_false (by omega) (fun hc => hT (hiff.mpr hc))

/-- Witness for C1 at the concrete batch step 3 of a W = 4 run. -/
theorem c1_aggregation_trigger_witness :
    (s3W.metrics.num_opt_steps = initState.metrics.num_opt_steps + 1
        ↔ ((3 + 1) % cfgW.num_batches = 0 ∧ (3 : Nat) ≠ 0)) ∧
    (aggTrigger cfgW.num_batches 3 = true ↔ ((3 + 1) % cfgW.num_batches = 0 ∧ (3 : Nat) ≠ 0)) ∧
    aggTrigger 4 3 = true ∧ aggTrigger 4 0 = false ∧
    aggTrigger 4 1 = false ∧ aggTrigger 4 2 = false :=
  c1_aggregation_trigger cfgW denW tenW 0 3 initState ⟨0, 0, 0, 0⟩ s3W l3W batchW_eval

/-- C2 (counterexample to the claim as stated): a run with `num_epochs = 1`
whose first evaluation loss is NaN terminates with `epoch = 2`, not with
`epoch == num_epochs`: line 126 sets `epoch = num_epochs` and line 128 then
increments it once more. -/
theorem c2_counterexample :
    (run_batch_train cfg2x den2x tenW).map RunState.epoch = .ok 2 ∧ cfg2x.num_epochs = 1 := by
  constructor
  · rw [run2x_eval]; rfl
  · rfl

/-- C2 as amended: every completed run halts with `epoch >= num_epochs`
(a clean observable stop), and an epoch whose evaluation loss diverges
(loss > 1e3, NaN, or infinite) leaves the loop with `epoch = num_epochs + 1`
while every metric series accumulated in earlier epochs is preserved as a
prefix. -/
theorem c2_divergence_termination :
    (∀ (cfg : Config) (den : DataEnv) (ten : TimeEnv) (s : RunState),
      run_batch_train cfg den ten = .ok s → cfg.num_epochs ≤ s.epoch) ∧
    (∀ (cfg : Config) (den : DataEnv) (ten : TimeEnv) (s s' : RunState),
      s.epoch < cfg.num_epochs → diverged (den.loss s.epoch) = true →
      epochStep cfg den ten s = .ok s' →
      s'.epoch = cfg.num_epochs + 1 ∧
      s.metrics.epoch_grad_cost <+: s'.metrics.epoch_grad_cost ∧
      s.metrics.epoch_agg_cost <+: s'.metrics.epoch_agg_cost ∧
      s.metrics.epoch_gm_iter <+: s'.metrics.epoch_gm_iter ∧
      s.metrics.epoch_compression_cost <+: s'.metrics.epoch_compression_cost ∧
      s.metrics.jacobian_residual <+: s'.metrics.jacobian_residual) := by
  constructor
  · intro cfg den ten s h
    refine (runLoopFuel_inv cfg den ten cfg.num_epochs initState s h).2.2 ?_
    show cfg.num_epochs - 0 ≤ cfg.num_epochs
    omega
  · intro cfg den ten s s' hlt hdiv h
    obtain ⟨hep, h1, h2, h3, h4, h5, -, -⟩ := epochStep_spec cfg den ten s s' h
    rw [hdiv] at hep
    exact ⟨by simpa using hep, h1, h2, h3, h4, h5⟩

/-- Witness for C2: the divergent run `cfg2x`/`den2x` halts past the epoch
bound, and its divergent epoch ends with `epoch = num_epochs + 1` with all
earlier series preserved. -/
theorem c2_divergence_termination_witness :
    cfg2x.num_epochs ≤ s2E.epoch ∧
    (s2E.epoch = cfg2x.num_epochs + 1 ∧
     initState.metrics.epoch_grad_cost <+: s2E.metrics.epoch_grad_cost ∧
     initState.metrics.epoch_agg_cost <+: s2E.metrics.epoch_agg_cost ∧
     initState.metrics.epoch_gm_iter <+: s2E.metrics.epoch_gm_iter ∧
     initState.metrics.epoch_compression_cost <+: s2E.metrics.epoch_compression_cost ∧
     initState.metrics.jacobian_residual <+: s2E.metrics.jacobian_residual) :=
  ⟨c2_divergence_termination.1 cfg2x den2x tenW s2E run2x_eval,
   c2_divergence_termination.2 cfg2x den2x tenW initState s2E (by decide) rfl epoch2x_eval⟩

/-- C3 (counterexample to the claim as stated): after a first gradient of
length d = 2, a later gradient of length 1 is not rejected — numpy broadcasts
it across the row and the run succeeds, storing `[5, 5]`. -/
theorem c3_counterexample :
    (den3x.grads 0 1).length = 1 ∧
    (run_batch_train cfg3x den3x tenW).map (fun s => (s.G, s.metrics.num_param))
      = .ok (some ⟨2, [[3, 4], [5, 5]]⟩, some 2) := by
  constructor
  · rfl
  · have h : run_batch_train cfg3x den3x tenW = .ok
        ⟨1, some ⟨2, [[3, 4], [5, 5]]⟩, ⟨0, 0⟩,
         ⟨2, 2, 1, some 2, [0, 0], [0, 0], [], [], [], 0, 0, 0, 0, 0, none⟩⟩ := by
      simp only [run_batch_train, runLoopFuel, epochStep, batchLoop, batchStep, npSetRow,
                 aggTrigger, diverged, initState, initMetrics, cfg3x, den3x, tenW,
                 List.range_succ]
      norm_num
      decide
    rw [h]; rfl

/-- C3 as amended: the Jacobian is allocated lazily exactly once, on the first
gradient, with `d` that vector's length and `num_param` recorded as `d`; a
later vector whose length differs from `d` raises numpy's broadcast
ValueError unless its length is 1, in which case numpy silently broadcasts
it across the row; a successful write never changes the matrix shape or
`num_param`. -/
theorem c3_lazy_alloc (cfg : Config) (den : DataEnv) (ten : TimeEnv)
    (e b : Nat) (s : RunState) (loc : EpochLocal) :
    (s.G = none →
      ∃ s' loc', batchStep cfg den ten e b s loc = .ok (s', loc') ∧
        s'.metrics.num_param = some (den.grads e b).length ∧
        ∃ j', s'.G = some j' ∧ j'.d = (den.grads e b).length ∧
          j'.rows.length = cfg.num_batches) ∧
    (∀ j, s.G = some j → (den.grads e b).length ≠ j.d → (den.grads e b).length ≠ 1 →
      batchStep cfg den ten e b s loc = .error "ValueError: could not broadcast input array") ∧
    (∀ j s' loc', s.G = some j → batchStep cfg den ten e b s loc = .ok (s', loc') →
      ∃ j', s'.G = some j' ∧ j'.d = j.d ∧ j'.rows.length = j.rows.length ∧
        s'.metrics.num_param = s.metrics.num_param) := by
  refine ⟨?_, ?_, ?_⟩
  · intro hG
    obtain ⟨s', loc', hok, hGeq, hnum⟩ := batchStep_G_none cfg den ten e b s loc hG
    exact ⟨s', loc', hok, hnum, ⟨_, hGeq, rfl, by simp⟩⟩
  · intro j hG hd h1
    exact batchStep_G_mismatch cfg den ten e b s loc j hG hd h1
  · intro j s' loc' hG hok
    obtain ⟨j', hG', hd, hlen, hnp, -⟩ := batchStep_G_some cfg den ten e b s loc s' loc' j hG hok
    exact ⟨j', hG', hd, hlen, hnp⟩

/-- Witness for C3: first-call allocation from the initial state, a fatal
mismatch for a length-3 vector against d = 2, and shape preservation for a
matching write. -/
theorem c3_lazy_alloc_witness :
    (∃ s' loc', batchStep cfgW denW tenW 0 0 initState ⟨0, 0, 0, 0⟩ = .ok (s', loc') ∧
        s'.metrics.num_param = some (denW.grads 0 0).length ∧
        ∃ j', s'.G = some j' ∧ j'.d = (denW.grads 0 0).length ∧
          j'.rows.length = cfgW.num_batches) ∧
    batchStep cfg3x den3m tenW 0 0 s3m ⟨0, 0, 0, 0⟩
      = .error "ValueError: could not broadcast input array" ∧
    (∃ j', s3g.G = some j' ∧ j'.d = 2 ∧ j'.rows.length = 2 ∧
      s3g.metrics.num_param = s3m.metrics.num_param) :=
  ⟨(c3_lazy_alloc cfgW denW tenW 0 0 initState ⟨0, 0, 0, 0⟩).1 rfl,
   (c3_lazy_alloc cfg3x den3m tenW 0 0 s3m ⟨0, 0, 0, 0⟩).2.1
     ⟨2, [[0, 0], [0, 0]]⟩ rfl (by decide) (by decide),
   (c3_lazy_alloc cfg3x den3g tenW 0 0 s3m ⟨0, 0, 0, 0⟩).2.2
     ⟨2, [[0, 0], [0, 0]]⟩ s3g l3g rfl batch3g_eval⟩

/-- C4 (counterexample to the claim as stated): selecting the `'vanilla'`
mode does not signal a not-implemented failure — `run_train` only sets the
seeds and silently returns. -/
theorem c4_counterexample :
    dispatch_train_mode "vanilla" = .ok TrainEffect.seeds_only ∧
    run_train_effect = TrainEffect.seeds_only := by
  constructor
  · simp [dispatch_train_mode, run_train_effect]
  · rfl

/-- C4 as amended: every mode name other than `'vanilla'` and
`'distributed'` (including `'fed'`) raises NotImplementedError in the
dispatch, and `run_fed_train` itself raises NotImplementedError; but the
vanilla mode silently runs its seeds-only routine without any failure. -/
theorem c4_unsupported_modes (m : String) :
    (m ≠ "vanilla" → m ≠ "distributed" →
      dispatch_train_mode m = .error "NotImplementedError") ∧
    run_fed_train
      = .error "NotImplementedError: This method needs to be implemented for each pipeline" := by
  refine ⟨fun h1 h2 => ?_, rfl⟩
  simp [dispatch_train_mode, h1, h2]

/-- Witness for C4 at the `'fed'` mode name. -/
theorem c4_unsupported_modes_witness :
    dispatch_train_mode "fed" = .error "NotImplementedError" ∧
    run_fed_train
      = .error "NotImplementedError: This method needs to be implemented for each pipeline" :=
  ⟨(c4_unsupported_modes "fed").1 (by decide) (by decide), (c4_unsupported_modes "fed").2⟩



/-- C5 (evaluating the code at the failing input): with 1 epoch of 2 batches,
the `epoch_grad_cost` and `epoch_agg_cost` series end up with 2 entries — one
per batch, not one per epoch: the appends at lines 109-115 sit inside the
batch loop. -/
theorem c5_per_batch_append :
    (run_batch_train cfg3x den9x tenW).map
        (fun s => (s.metrics.epoch_grad_cost.length, s.metrics.epoch_agg_cost.length))
      = .ok (2, 2) ∧ cfg3x.num_epochs = 1 ∧ cfg3x.batches_per_epoch = 2 := by
  have h : run_batch_train cfg3x den9x tenW = .ok
      ⟨1, some ⟨1, [[1], [1]]⟩, ⟨0, 0⟩,
       ⟨2, 2, 1, some 1, [0, 0], [0, 0], [], [], [], 0, 0, 0, 0, 0, none⟩⟩ := by
    simp only [run_batch_train, runLoopFuel, epochStep, batchLoop, batchStep, npSetRow,
               aggTrigger, diverged, initState, initMetrics, cfg3x, den9x, tenW,
               List.range_succ]
    norm_num
    decide
  exact ⟨by rw [h]; rfl, rfl, rfl⟩

/-- C6: at every epoch boundary (any number of completed loop iterations from
the initial state), each running total equals the sum of its series,
`total_cost` is the sum of the three cost totals, and `avg_gm_cost` is
present (with value `total_agg_cost / total_gm_iter`) exactly when
`total_gm_iter` is nonzero. -/
theorem c6_totals_at_boundaries (cfg : Config) (den : DataEnv) (ten : TimeEnv)
    (k : Nat) (s : RunState) (h : runLoopFuel cfg den ten k initState = .ok s) :
    TotalsOk s.metrics :=
  ((runLoopFuel_inv cfg den ten k initState s h).1 ⟨initState_ok.1, initState_ok.2.1⟩).2

/-- Witness for C6 after one epoch of the concrete run `cfgW`/`denW`/`tenW`. -/
theorem c6_totals_at_boundaries_witness : TotalsOk s6W.metrics :=
  c6_totals_at_boundaries cfgW denW tenW 1 s6W runW_eval

/-- C7: if the aggregator's counters are zero on entry (as the reset
discipline guarantees between rounds), then a triggering batch adds the
aggregator's `num_iter`/`agg_time` to the epoch accumulators and resets both
counters to zero, a non-triggering batch leaves all of them unchanged, and in
either case the counters are zero again after the step. -/
theorem c7_gar_counters (cfg : Config) (den : DataEnv) (ten : TimeEnv)
    (e b : Nat) (s : RunState) (loc : EpochLocal) (s' : RunState) (loc' : EpochLocal)
    (h : batchStep cfg den ten e b s loc = .ok (s', loc')) (hz : s.gar = ⟨0, 0⟩) :
    (aggTrigger cfg.num_batches b = true →
      loc'.epoch_gm_iter = loc.epoch_gm_iter + den.gar_iters e b ∧
      loc'.epoch_agg_cost = loc.epoch_agg_cost + ten.agg_time e b) ∧
    (aggTrigger cfg.num_batches b = false →
      s'.gar = s.gar ∧ loc'.epoch_gm_iter = loc.epoch_gm_iter ∧
      loc'.epoch_agg_cost = loc.epoch_agg_cost) ∧
    s'.gar = ⟨0, 0⟩ := by
  obtain ⟨-, hgar, -, -, -, -, -, -, -, -, -, -, -, -, -, -, hlgm, hlac⟩ :=
    batchStep_spec cfg den ten e b s loc s' loc' h
  refine ⟨fun hT => ?_, fun hF => ?_, ?_⟩
  · rw [hlgm, hlac, if_pos hT, if_pos hT]
    exact ⟨rfl, rfl⟩
  · have hF' : ¬(aggTrigger cfg.num_batches b = true) := by simp [hF]
    rw [hgar, hlgm, hlac, if_neg hF', if_neg hF', if_neg hF']
    exact ⟨rfl, rfl, by ring⟩
  · rw [hgar]
    split_ifs
    · rfl
    · exact hz

/-- Witness for C7 at the triggering batch step 3 of the concrete W = 4 run. -/
theorem c7_gar_counters_witness :
    (aggTrigger cfgW.num_batches 3 = true →
      l3W.epoch_gm_iter = (⟨0, 0, 0, 0⟩ : EpochLocal).epoch_gm_iter + denW.gar_iters 0 3 ∧
      l3W.epoch_agg_cost = (⟨0, 0, 0, 0⟩ : EpochLocal).epoch_agg_cost + tenW.agg_time 0 3) ∧
    (aggTrigger cfgW.num_batches 3 = false →
      s3W.gar = initState.gar ∧
      l3W.epoch_gm_iter = (⟨0, 0, 0, 0⟩ : EpochLocal).epoch_gm_iter ∧
      l3W.epoch_agg_cost = (⟨0, 0, 0, 0⟩ : EpochLocal).epoch_agg_cost) ∧
    s3W.gar = ⟨0, 0⟩ :=
  c7_gar_counters cfgW denW tenW 0 3 initState ⟨0, 0, 0, 0⟩ s3W l3W batchW_eval rfl

/-- C8 (counterexample to the claim as stated with a global batch index):
with W = 2 and 3 batches per epoch, the write at global step 3 (= epoch 1,
per-epoch batch 0, by `enumerate` restarting each epoch) goes to row
`0 mod 2 = 0`; immediately afterwards row `3 mod 2 = 1` holds `[1]`, the
gradient of global step 1, not `[3]`, the gradient of global step 3. -/
theorem c8_counterexample :
    ((epochStep cfg8x den8x tenW initState).bind
        (fun s1 => batchStep cfg8x den8x tenW 1 0 s1 ⟨0, 0, 0, 0⟩)).map (fun p => p.1.G)
      = .ok (some ⟨1, [[3], [1]]⟩) ∧
    den8x.grads 1 0 = [3] ∧ (3 : Nat) % 2 = 1 ∧
    ([[3], [1]] : List (List ℚ))[1]? = some [1] ∧ ([1] : List ℚ) ≠ [3] := by
  have h1 : epochStep cfg8x den8x tenW initState = .ok
      ⟨1, some ⟨1, [[2], [1]]⟩, ⟨0, 0⟩,
       ⟨3, 3, 1, some 1, [0, 0, 0], [0, 0, 0], [], [], [], 0, 0, 0, 0, 0, none⟩⟩ := by
    simp only [epochStep, batchLoop, batchStep, npSetRow, aggTrigger, diverged,
               initState, initMetrics, cfg8x, den8x, tenW, List.range_succ]
    norm_num
    all_goals decide
  have h2 : batchStep cfg8x den8x tenW 1 0
      ⟨1, some ⟨1, [[2], [1]]⟩, ⟨0, 0⟩,
       ⟨3, 3, 1, some 1, [0, 0, 0], [0, 0, 0], [], [], [], 0, 0, 0, 0, 0, none⟩⟩ ⟨0, 0, 0, 0⟩
      = .ok (⟨1, some ⟨1, [[3], [1]]⟩, ⟨0, 0⟩,
             ⟨4, 4, 1, some 1, [0, 0, 0, 0], [0, 0, 0, 0], [], [], [], 0, 0, 0, 0, 0, none⟩⟩,
             ⟨0, 0, 0, 0⟩) := by
    simp only [batchStep, npSetRow, aggTrigger, cfg8x, den8x, tenW]
    norm_num
  refine ⟨?_, by norm_num [den8x], rfl, rfl, by simp⟩
  rw [h1]
  simp only [Except.bind]
  rw [h2]
  rfl

/-- C8 as amended: with `batch_ix` the per-epoch batch index (as produced by
`enumerate(self.train_loader)`, which restarts at 0 every epoch), every
successful buffer write at step `batch_ix` stores that step's gradient in row
`batch_ix mod W`, leaving all other rows unchanged; the claimed global-index
form holds only when the batches-per-epoch count is a multiple of W. -/
theorem c8_row_slot (cfg : Config) (den : DataEnv) (ten : TimeEnv)
    (e b : Nat) (s : RunState) (loc : EpochLocal) (hW : 0 < cfg.num_batches) :
    (s.G = none → ∀ s' loc', batchStep cfg den ten e b s loc = .ok (s', loc') →
      ∃ j', s'.G = some j' ∧
        j'.rows[b % cfg.num_batches]? = some (den.grads e b)) ∧
    (∀ j s' loc', s.G = some j → j.rows.length = cfg.num_batches →
      (den.grads e b).length = j.d →
      batchStep cfg den ten e b s loc = .ok (s', loc') →
      ∃ j', s'.G = some j' ∧
        j'.rows[b % cfg.num_batches]? = some (den.grads e b) ∧
        ∀ r, r ≠ b % cfg.num_batches → j'.rows[r]? = j.rows[r]?) := by
  constructor
  · intro hG s' loc' h
    obtain ⟨s2, loc2, hok, hGeq, -⟩ := batchStep_G_none cfg den ten e b s loc hG
    rw [hok] at h
    simp only [Except.ok.injEq, Prod.mk.injEq] at h
    obtain ⟨hs, -⟩ := h
    subst hs
    refine ⟨_, hGeq, ?_⟩
    rw [List.getElem?_set_self]
    simp only [List.length_replicate]
    exact Nat.mod_lt b hW
  · intro j s' loc' hG hrows hlen h
    obtain ⟨j', hG', hd, hlenrows, -, hset⟩ :=
      batchStep_G_some cfg den ten e b s loc s' loc' j hG h
    refine ⟨j', hG', ?_, ?_⟩
    · rw [hset hlen, List.getElem?_set_self]
      rw [hrows]
      exact Nat.mod_lt b hW
    · intro r hr
      rw [hset hlen, List.getElem?_set_ne (fun hc => hr hc.symm)]

/-- Witness for C8: the first write from the empty buffer at step 3 of a
W = 4 run lands in row 3, and a write against an allocated 2 x 2 buffer at
step 0 lands in row 0 leaving row 1 unchanged. -/
theorem c8_row_slot_witness :
    (∃ j', s3W.G = some j' ∧ j'.rows[3 % cfgW.num_batches]? = some (denW.grads 0 3)) ∧
    (∃ j', s3g.G = some j' ∧ j'.rows[0 % cfg3x.num_batches]? = some (den3g.grads 0 0) ∧
      ∀ r, r ≠ 0 % cfg3x.num_batches →
        j'.rows[r]? = (⟨2, [[0, 0], [0, 0]]⟩ : Jac).rows[r]?) :=
  ⟨(c8_row_slot cfgW denW tenW 0 3 initState ⟨0, 0, 0, 0⟩ (by decide)).1
     rfl s3W l3W batchW_eval,
   (c8_row_slot cfg3x den3g tenW 0 0 s3m ⟨0, 0, 0, 0⟩ (by decide)).2
     ⟨2, [[0, 0], [0, 0]]⟩ s3g l3g rfl rfl rfl batch3g_eval⟩

/-- C9 (counterexample to the claim as stated): two runs with identical
seed-determined data and configuration but different wall-clock behavior
produce different metrics (the recorded cost series copy `time.time()`
measurements), so the metrics output is not a function of seed, config and
data alone. -/
theorem c9_counterexample :
    (run_batch_train cfg9x den9x ten9a).map (fun s => s.metrics.epoch_grad_cost)
      = .ok [1] ∧
    (run_batch_train cfg9x den9x ten9b).map (fun s => s.metrics.epoch_grad_cost)
      = .ok [2] ∧
    run_batch_train cfg9x den9x ten9a ≠ run_batch_train cfg9x den9x ten9b := by
  have hA : run_batch_train cfg9x den9x ten9a = .ok
      ⟨1, some ⟨1, [[1]]⟩, ⟨0, 0⟩,
       ⟨1, 1, 0, some 1, [1], [0], [], [], [], 1, 0, 0, 0, 1, none⟩⟩ := by
    simp only [run_batch_train, runLoopFuel, epochStep, batchLoop, batchStep, npSetRow,
               aggTrigger, diverged, initState, initMetrics, cfg9x, den9x, ten9a,
               List.range_succ]
    norm_num
  have hB : run_batch_train cfg9x den9x ten9b = .ok
      ⟨1, some ⟨1, [[1]]⟩, ⟨0, 0⟩,
       ⟨1, 1, 0, some 1, [2], [0], [], [], [], 2, 0, 0, 0, 2, none⟩⟩ := by
    simp only [run_batch_train, runLoopFuel, epochStep, batchLoop, batchStep, npSetRow,
               aggTrigger, diverged, initState, initMetrics, cfg9x, den9x, ten9b,
               List.range_succ]
    norm_num
  refine ⟨by rw [hA]; rfl, by rw [hB]; rfl, ?_⟩
  intro hcon
  rw [hA, hB] at hcon
  norm_num [RunState.mk.injEq, Metrics.mk.injEq] at hcon

/-- C9 as amended: all timing-independent components of the result — the
epoch counter, the Jacobian, and the metrics `num_iter`, `num_grad_steps`,
`num_opt_steps`, `num_param`, `epoch_gm_iter`, `jacobian_residual`,
`total_gm_iter` — are bit-identical across two runs with identical seed,
configuration and input data, whatever the wall-clock observations; only the
recorded cost values depend on timing. -/
theorem c9_determinism (cfg : Config) (den : DataEnv) (t1 t2 : TimeEnv) :
    (run_batch_train cfg den t1).map ntOf = (run_batch_train cfg den t2).map ntOf :=
  runLoopFuel_nt cfg den t1 t2 cfg.num_epochs initState initState rfl

/-- C10: `num_iter` and `num_grad_steps` are incremented together once per
processed batch, so equality of the two counters is preserved by every batch
step and batch loop, and holds after any number of loop iterations from the
initial state. -/
theorem c10_iter_grad_equal :
    (∀ (cfg : Config) (den : DataEnv) (ten : TimeEnv) (e b : Nat) (s : RunState)
        (loc : EpochLocal) (s' : RunState) (loc' : EpochLocal),
      batchStep cfg den ten e b s loc = .ok (s', loc') →
      s.metrics.num_iter = s.metrics.num_grad_steps →
      s'.metrics.num_iter = s'.metrics.num_grad_steps) ∧
    (∀ (cfg : Config) (den : DataEnv) (ten : TimeEnv) (e : Nat) (bs : List Nat)
        (s : RunState) (loc : EpochLocal) (s' : RunState) (loc' : EpochLocal),
      batchLoop cfg den ten e bs s loc = .ok (s', loc') →
      s.metrics.num_iter = s.metrics.num_grad_steps →
      s'.metrics.num_iter = s'.metrics.num_grad_steps) ∧
    (∀ (cfg : Config) (den : DataEnv) (ten : TimeEnv) (k : Nat) (s : RunState),
      runLoopFuel cfg den ten k initState = .ok s →
      s.metrics.num_iter = s.metrics.num_grad_steps) := by
  refine ⟨?_, ?_, ?_⟩
  · intro cfg den ten e b s loc s' loc' h hEq
    obtain ⟨-, -, hni, hngs, -⟩ := batchStep_spec cfg den ten e b s loc s' loc' h
    rw [hni, hngs, hEq]
  · intro cfg den ten e bs s loc s' loc' h hEq
    obtain ⟨-, ini, ings, -⟩ := batchLoop_spec cfg den ten e bs s loc s' loc' h
    rw [ini, ings, hEq]
  · intro cfg den ten k s h
    exact (runLoopFuel_inv cfg den ten k initState s h).2.1 rfl

/-- Witness for C10 after one batch step, one full batch loop and one full
epoch of the concrete W = 4 run. -/
theorem c10_iter_grad_equal_witness :
    s3W.metrics.num_iter = s3W.metrics.num_grad_steps ∧
    sLW.metrics.num_iter = sLW.metrics.num_grad_steps ∧
    s6W.metrics.num_iter = s6W.metrics.num_grad_steps :=
  ⟨c10_iter_grad_equal.1 cfgW denW tenW 0 3 initState ⟨0, 0, 0, 0⟩ s3W l3W batchW_eval rfl,
   c10_iter_grad_equal.2.1 cfgW denW tenW 0 [0, 1, 2, 3] initState ⟨0, 0, 0, 0⟩ sLW lLW
     loopW_eval rfl,
   c10_iter_grad_equal.2.2 cfgW denW tenW 1 s6W runW_eval⟩

end BGMD
